import Mathlib

/-!
Shallow embedding of the Class Notification Scheduler of
`backend/scheduler.py` (class `NotificationScheduler`) together with the
store facts established by `backend/server.py` (`startup_event` creates a
unique index on `sent_notifications.notification_key`).

Conventions.
All wall-clock values are naive Moscow-local datetimes (the scheduler runs
everything in `MOSCOW_TZ` and strips the timezone before storing).  Python
`datetime` components are embedded as integers and time arithmetic is done
in exact integer microseconds (`datetime` resolution); the float minute
values the source compares against are recovered exactly as rationals,
see `timeDiffMinutes` and `window_iff_timeDiff`.
-/

namespace Sched

/-- Embedding of a (naive, Moscow-local) Python `datetime`. -/
structure DateTime where
  year : Int
  month : Int
  day : Int
  hour : Int
  minute : Int
  second : Int
  microsecond : Int
deriving DecidableEq, Repr

/-- Time of day in microseconds: the exact value underlying the float
arithmetic of `_check_and_notify` (`datetime` values have microsecond
resolution, so all differences are integer microsecond counts). -/
def microOfDay (dt : DateTime) : Int :=
  ((dt.hour * 60 + dt.minute) * 60 + dt.second) * 1000000 + dt.microsecond

/-- Gregorian leap-year rule (Python `calendar`/`datetime` convention). -/
def isLeapYear (y : Int) : Bool :=
  (y % 4 == 0 && y % 100 != 0) || y % 400 == 0

/-- Length of month `m` of year `y`. -/
def daysInMonth (y m : Int) : Int :=
  if m == 2 then (if isLeapYear y then 29 else 28)
  else if m == 4 || m == 6 || m == 9 || m == 11 then 30
  else 31

/-- Ordinal day of the year (1-based), as used by `date.isocalendar`. -/
def dayOfYear (y m d : Int) : Int :=
  (List.range (m - 1).toNat).foldl (fun acc i => acc + daysInMonth y ((i : Int) + 1)) 0 + d

/-- Days from 0001-01-01 (exclusive) to Jan 1 of year `y`. -/
def daysBeforeYear (y : Int) : Int :=
  let p := y - 1
  365 * p + p.fdiv 4 - p.fdiv 100 + p.fdiv 400

/-- Proleptic Gregorian day number (0001-01-01 = day 1),
Python `date.toordinal`. -/
def rataDie (y m d : Int) : Int :=
  daysBeforeYear y + dayOfYear y m d

/-- ISO weekday, Monday = 1 .. Sunday = 7 (0001-01-01 was a Monday). -/
def isoWeekday (y m d : Int) : Int :=
  (rataDie y m d - 1).emod 7 + 1

/-- Weekday index of 31 December of year `y` (Thursday = 4), the helper of
the standard ISO-8601 week count. -/
def decemberWeekday (y : Int) : Int :=
  (y + y.fdiv 4 - y.fdiv 100 + y.fdiv 400).emod 7

/-- Number of ISO-8601 weeks in year `y` (52 or 53). -/
def isoWeeksInYear (y : Int) : Int :=
  if decemberWeekday y == 4 || decemberWeekday (y - 1) == 3 then 53 else 52

/-- ISO-8601 calendar week number of a date, the `iso_week` component of
Python `date.isocalendar()` used by `_get_week_number`. -/
def isoWeek (y m d : Int) : Int :=
  let w := (dayOfYear y m d - isoWeekday y m d + 10).fdiv 7
  if w < 1 then isoWeeksInYear (y - 1)
  else if w > isoWeeksInYear y then 1
  else w

/-- `NotificationScheduler._get_week_number`: 1 for odd ISO week numbers,
2 for even ones. -/
def getWeekNumber (dt : DateTime) : Int :=
  let iso_week := isoWeek dt.year dt.month dt.day
  if iso_week % 2 == 1 then 1 else 2

/-- Decimal digits of `n`, least significant first, as characters; `fuel`
only bounds the recursion (`n ≤ fuel` in every intended use). -/
def natDigitsRevAux : Nat → Nat → List Char
  | 0, _ => []
  | _ + 1, 0 => []
  | fuel + 1, n + 1 =>
    Nat.digitChar ((n + 1) % 10) :: natDigitsRevAux fuel ((n + 1) / 10)

/-- Decimal rendering of a natural number, embedding Python `str(n)` and
the `%d` pieces of `strftime` (most significant digit first). -/
def pyStrNat (n : Nat) : String :=
  if n = 0 then "0" else String.mk (natDigitsRevAux n n).reverse

/-- Python `str(i)` for `int` values (used by the f-string that builds
`notification_key`). -/
def pyStrInt (i : Int) : String :=
  if i < 0 then "-" ++ pyStrNat (-i).toNat else pyStrNat i.toNat

/-- Zero-pad a decimal rendering on the left to width `w` (`%02d`, `%04d`). -/
def padZero (w : Nat) (n : Nat) : String :=
  let s := pyStrNat n
  String.mk (List.replicate (w - s.length) '0') ++ s

/-- `now.strftime(%Y-%m-%d)` on the date part of a datetime (the year,
month and day are nonnegative on every real datetime). -/
def formatDate (dt : DateTime) : String :=
  padZero 4 dt.year.toNat ++ "-" ++ padZero 2 dt.month.toNat ++ "-" ++ padZero 2 dt.day.toNat

/-- Split a character list at every occurrence of `sep` (empty groups
kept), the semantics of Python `str.split` with a one-character
separator. -/
def splitOnChar : List Char → Char → List (List Char)
  | [], _ => [[]]
  | c :: cs, sep =>
    match splitOnChar cs sep with
    | g :: gs => if c = sep then [] :: g :: gs else (c :: g) :: gs
    | [] => [[c]]

/-- Python `s.split(sep)` for a one-character separator. -/
def pySplit (s : String) (sep : Char) : List String :=
  (splitOnChar s.data sep).map String.mk

/-- The whitespace set Python `str.strip()` removes (ASCII part). -/
def isPySpace (c : Char) : Bool :=
  c == ' ' || c == '\t' || c == '\n' || c == '\r' || c == '\x0b' || c == '\x0c'

/-- Python `s.strip()`. -/
def pyStrip (s : String) : String :=
  String.mk (((s.data.dropWhile isPySpace).reverse.dropWhile isPySpace).reverse)

/-- Python `c in s` for a one-character needle. -/
def pyContains (s : String) (c : Char) : Bool :=
  s.data.contains c

/-- Python `int(s)` on strings: optional surrounding whitespace, an optional
sign, then decimal digits in which single underscores may appear between
digits (CPython accepts `1_0` as 10). Returns `none` where `int` raises
`ValueError`. -/
def pyInt (s : String) : Option Int :=
  let t := (pyStrip s).data
  let (neg, body) :=
    match t with
    | '-' :: rest => (true, rest)
    | '+' :: rest => (false, rest)
    | l => (false, l)
  if (splitOnChar body '_').all (fun g => g.length > 0 && g.all Char.isDigit) then
    let v : Nat := (body.filter Char.isDigit).foldl
      (fun acc c => 10 * acc + (c.toNat - 48)) 0
    some (if neg then -(v : Int) else (v : Int))
  else none

/-- `time_str.split('-')[0].strip()` of `_check_and_notify`. -/
def startTimeStrOf (time_str : String) : String :=
  pyStrip ((pySplit time_str '-').headD "")

/-- `start_hour, start_minute = map(int, start_time_str.split(':'))`,
`none` when the `ValueError`/`AttributeError` handler fires (not exactly
two parts, or a part `int` rejects). -/
def parseStartTime (s : String) : Option (Int × Int) :=
  match (pySplit s ':').map pyInt with
  | [some h, some m] => some (h, m)
  | _ => none

/-- The dispatch key:
`f-string telegram_id _ discipline _ start_time _ date` of
`_check_and_notify` (underscore-joined). -/
def notificationKey (telegram_id : Int) (discipline start_time_str today_date : String) :
    String :=
  pyStrInt telegram_id ++ "_" ++ discipline ++ "_" ++ start_time_str ++ "_" ++ today_date

/-- Absolute naive-local time in microseconds (for `expires_at`
comparisons; `timedelta(days=2)` is 172800000000 microseconds). -/
def toAbsMicro (dt : DateTime) : Int :=
  rataDie dt.year dt.month dt.day * 86400000000 + microOfDay dt

/-- One document of the `sent_notifications` collection, as inserted by
`_check_and_notify`. -/
structure SentNotification where
  notification_key : String
  telegram_id : Int
  class_discipline : String
  class_time : String
  notification_time_minutes : Int
  sent_at : Int
  date : String
  success : Option Bool
  expires_at : Int
deriving DecidableEq, Repr

/-- The `sent_notifications` collection (`startup_event` of server.py puts
a unique index on `notification_key`, so key membership is what decides an
insert). -/
abbrev Store := List SentNotification

/-- Does the collection hold a document with this `notification_key`
(`find_one` on the key returns a document)? -/
def hasKey (store : Store) (key : String) : Bool :=
  store.any (fun r => r.notification_key == key)

/-- Result of `insert_one` against the unique index. -/
inductive InsertResult
  | inserted
  | duplicateKey
  | storeError
deriving DecidableEq, Repr

/-- `insert_one` under the unique `notification_key` index: a transient
store failure raises (modelled by the `fail` flag), a present key raises
`DuplicateKeyError`, otherwise the document is appended. -/
def tryInsert (fail : Bool) (store : Store) (rec : SentNotification) :
    InsertResult × Store :=
  if fail then (.storeError, store)
  else if hasKey store rec.notification_key then (.duplicateKey, store)
  else (.inserted, store ++ [rec])

/-- `update_one({notification_key: key}, {$set: {success: b}})`: updates the
first matching document. -/
def updateSuccess (store : Store) (key : String) (b : Bool) : Store :=
  match store with
  | [] => []
  | r :: rest =>
    if r.notification_key == key then { r with success := some b } :: rest
    else r :: updateSuccess rest key b

/-- A class event document from the cached schedule; only the fields
`_check_and_notify` reads (`.get` of a possibly-missing field is `Option`). -/
structure ClassEvent where
  day : Option String
  time : Option String
  discipline : Option String
deriving DecidableEq, Repr

/-- Environment of one `_check_and_notify` run: the behaviour of the opaque
Notification Channel (modelled from the spec: `send` returns a delivered
boolean or raises a transport error) and transient-failure injection for
the two store writes. -/
structure Env where
  insertFails : Bool
  sendRaises : Bool
  sendDelivered : Bool
  updateFails : Bool
deriving DecidableEq, Repr

/-- Store-facing and channel-facing actions of one run, in program order. -/
inductive Event
  | findOp (key : String) (found : Bool)
  | insertOk (rec : SentNotification)
  | insertDup (key : String)
  | insertErr (key : String)
  | sendOp (telegram_id : Int) (discipline : String) (minutes_before : Int)
  | sendRaised
  | updateOk (key : String) (b : Bool)
  | updateErr (key : String)
deriving DecidableEq, Repr

/-- Control-flow outcome of one `_check_and_notify` run. -/
inductive CheckOutcome
  | invalidTime
  | parseFail
  | replaceError
  | notDue
  | alreadySent
  | insertDuplicate
  | insertError
  | sendRaisedCaught
  | sent (success : Bool)
deriving DecidableEq, Repr

/-- Result of one `_check_and_notify` run. -/
structure CheckResult where
  store : Store
  outcome : CheckOutcome
  events : List Event
deriving DecidableEq, Repr

/-- `now - notification_datetime` of `_check_and_notify` in exact
microseconds, where `notification_datetime` is
`now.replace(hour, minute, 0, 0) - timedelta(minutes=lead)` (same calendar
day, so only the time-of-day parts differ). -/
def diffMicro (now : DateTime) (start_hour start_minute notification_time : Int) : Int :=
  microOfDay now - (start_hour * 3600 + start_minute * 60) * 1000000
    + notification_time * 60000000

/-- `time_diff_minutes` of `_check_and_notify`:
`(now - notification_datetime).total_seconds() / 60`, as the exact
rational the float arithmetic computes. -/
def timeDiffMinutes (now : DateTime) (start_hour start_minute notification_time : Int) :
    ℚ :=
  (diffMicro now start_hour start_minute notification_time : ℚ) / 60000000

/-- The `-0.5 <= time_diff_minutes < 5.5` test of `_check_and_notify`, on
the exact microsecond count (`-0.5` minutes is `-30000000` microseconds,
`5.5` minutes is `330000000`; see `window_iff_timeDiff` below for the
equivalence with the minute form). -/
def inWindow (m : Int) : Bool :=
  -30000000 ≤ m && m < 330000000

/-- The document `_check_and_notify` inserts (note `success = None`). -/
def mkRecord (key : String) (telegram_id : Int) (discipline time_str : String)
    (notification_time : Int) (now : DateTime) : SentNotification :=
  { notification_key := key
    telegram_id := telegram_id
    class_discipline := discipline
    class_time := time_str
    notification_time_minutes := notification_time
    sent_at := toAbsMicro now
    date := formatDate now
    success := none
    expires_at := toAbsMicro now + 172800000000 }

/-- The body of the due branch of `_check_and_notify`, abstracted over the
already-built dispatch key: `find_one` on the key, `insert_one` with its
`DuplicateKeyError` and generic handlers, the channel send, and the
`success` write-back. A raise from the channel falls through to the outer
`except`, skipping the write-back. -/
def dueKeyed (env : Env) (store : Store) (telegram_id : Int)
    (discipline time_str : String) (notification_time : Int) (now : DateTime)
    (key : String) : CheckResult :=
  if hasKey store key then
    ⟨store, .alreadySent, [.findOp key true]⟩
  else
    match tryInsert env.insertFails store
        (mkRecord key telegram_id discipline time_str notification_time now) with
    | (.storeError, s1) =>
      ⟨s1, .insertError, [.findOp key false, .insertErr key]⟩
    | (.duplicateKey, s1) =>
      ⟨s1, .insertDuplicate, [.findOp key false, .insertDup key]⟩
    | (.inserted, s1) =>
      if env.sendRaises then
        ⟨s1, .sendRaisedCaught,
          [.findOp key false,
           .insertOk (mkRecord key telegram_id discipline time_str notification_time now),
           .sendOp telegram_id discipline notification_time, .sendRaised]⟩
      else if env.updateFails then
        ⟨s1, .sent env.sendDelivered,
          [.findOp key false,
           .insertOk (mkRecord key telegram_id discipline time_str notification_time now),
           .sendOp telegram_id discipline notification_time, .updateErr key]⟩
      else
        ⟨updateSuccess s1 key env.sendDelivered, .sent env.sendDelivered,
          [.findOp key false,
           .insertOk (mkRecord key telegram_id discipline time_str notification_time now),
           .sendOp telegram_id discipline notification_time, .updateOk key env.sendDelivered]⟩

/-- The part of `_check_and_notify` that runs once the class has been
judged due (lines 222-294 of scheduler.py): builds the dispatch key from
the discipline, start time and date, then runs the guarded dispatch. -/
def duePath (env : Env) (store : Store) (telegram_id : Int)
    (discipline start_time_str time_str : String) (notification_time : Int)
    (now : DateTime) : CheckResult :=
  dueKeyed env store telegram_id discipline time_str notification_time now
    (notificationKey telegram_id discipline start_time_str (formatDate now))

/-- `NotificationScheduler._check_and_notify`, one run over a store
snapshot. Follows the source line by line: time parse, `now.replace`
validation, window test, then `duePath` for a due class. -/
def checkAndNotify (env : Env) (store : Store) (telegram_id : Int)
    (class_event : ClassEvent) (notification_time : Int) (now : DateTime) :
    CheckResult :=
  let time_str := class_event.time.getD ""
  if time_str = "" || !(pyContains time_str '-') then
    ⟨store, .invalidTime, []⟩
  else
    let start_time_str := startTimeStrOf time_str
    match parseStartTime start_time_str with
    | none => ⟨store, .parseFail, []⟩
    | some (start_hour, start_minute) =>
      if !(0 ≤ start_hour && start_hour ≤ 23 && 0 ≤ start_minute && start_minute ≤ 59) then
        ⟨store, .replaceError, []⟩
      else if inWindow (diffMicro now start_hour start_minute notification_time) then
        duePath env store telegram_id (class_event.discipline.getD "Unknown")
          start_time_str time_str notification_time now
      else
        ⟨store, .notDue, []⟩

/-- A BSON field that may be missing, `null`, or a string (needed because
the eligibility query tests both `$exists` and `$ne: null`). -/
inductive GroupField
  | missing
  | null
  | val (s : String)
deriving DecidableEq, Repr

/-- A `user_settings` document, restricted to the fields the scheduler
reads. -/
structure UserRecord where
  telegram_id : Int
  notifications_enabled : Bool
  group_id : GroupField
  notification_time : Option Int
deriving DecidableEq, Repr

/-- The Mongo filter of `check_and_send_notifications`:
`notifications_enabled: true, group_id: {$exists: true, $ne: null}`. -/
def eligibleFilter (u : UserRecord) : Bool :=
  u.notifications_enabled &&
    (match u.group_id with
     | .missing => false
     | .null => false
     | .val _ => true)

/-- The user set one tick processes: every stored document matching the
filter. -/
def processedUsers (users : List UserRecord) : List UserRecord :=
  users.filter eligibleFilter

/-- The spec's wording of eligibility (refinement target, not source
code): enabled and a NON-EMPTY group assignment. -/
def specEligible (u : UserRecord) : Bool :=
  u.notifications_enabled &&
    (match u.group_id with
     | .val s => !(s == "")
     | _ => false)

/-- `user.get('notification_time', 10)` of `_check_user_classes`. -/
def leadOf (u : UserRecord) : Int :=
  u.notification_time.getD 10

/-- The per-class loop of `_check_user_classes`: every class of the day is
evaluated in order, each against the store the previous one left; the
environment may differ per class (transient failures strike one call, not
the loop). -/
def checkClassesList (envs : Nat → Env) (store : Store) (telegram_id : Int)
    (notification_time : Int) (now : DateTime) :
    List ClassEvent → Store × List CheckOutcome
  | [] => (store, [])
  | c :: rest =>
    let r := checkAndNotify (envs 0) store telegram_id c notification_time now
    let (s1, outs) :=
      checkClassesList (fun i => envs (i + 1)) r.store telegram_id notification_time now rest
    (s1, r.outcome :: outs)

/-- `_check_user_classes` for one user, given that user's cached events:
filters the day's classes (`e.get('day') == day`) and evaluates each with
the user's lead time. -/
def checkUserClasses (envs : Nat → Env) (store : Store) (u : UserRecord)
    (events : List ClassEvent) (day : String) (now : DateTime) :
    Store × List CheckOutcome :=
  checkClassesList envs store u.telegram_id (leadOf u) now
    (events.filter (fun e => e.day == some day))

/-- The per-user loop of `check_and_send_notifications` over the already
eligibility-filtered users (each paired with its cached events; failures
are caught per user, the loop always moves on). -/
def runTick (envs : Nat → Nat → Env) (store : Store) (day : String) (now : DateTime) :
    List (UserRecord × List ClassEvent) → Store × List (List CheckOutcome)
  | [] => (store, [])
  | (u, evs) :: rest =>
    let (s1, outs) := checkUserClasses (envs 0) store u evs day now
    let (s2, rests) := runTick (fun i => envs (i + 1)) s1 day now rest
    (s2, outs :: rests)

/-- The dispatch key a run of `_check_and_notify` would use, computed from
its arguments alone. -/
def dispatchKeyOf (telegram_id : Int) (class_event : ClassEvent) (now : DateTime) :
    String :=
  notificationKey telegram_id (class_event.discipline.getD "Unknown")
    (startTimeStrOf (class_event.time.getD "")) (formatDate now)

/-- Scans an event list in program order and checks that every channel
send happens only after an `insert_one` of a record for `key` with
`success = None` has already succeeded (`claimed` carries whether such an
insert has been seen). -/
def sendsGuarded (key : String) (claimed : Bool) : List Event → Bool
  | [] => true
  | .insertOk r :: rest =>
    sendsGuarded key (claimed || (r.notification_key == key && r.success.isNone)) rest
  | .sendOp _ _ _ :: rest => claimed && sendsGuarded key claimed rest
  | _ :: rest => sendsGuarded key claimed rest

/-- Fault-free environment: the channel delivers, the store works. -/
def envOK : Env :=
  { insertFails := false, sendRaises := false, sendDelivered := true, updateFails := false }

/-- Environment in which the channel raises a transport error. -/
def envRaise : Env :=
  { insertFails := false, sendRaises := true, sendDelivered := true, updateFails := false }

/-- A sample cached class event (used by the concrete scenarios). -/
def sampleEvent : ClassEvent :=
  { day := some "Среда", time := some "10:30-12:00", discipline := some "Math" }

/-- A sample evening class (used by the lead-time scenarios). -/
def eveningEvent : ClassEvent :=
  { day := some "Среда", time := some "20:00-21:30", discipline := some "Math" }

/-! ### Interleaved executions of the dispatch guard

`_check_and_notify` touches the shared `sent_notifications` collection in
two separate atomic store operations: the `find_one` and the `insert_one`.
Between them any other scheduler instance can run. The model below keeps,
per execution, only its position in that protocol, and lets an arbitrary
schedule interleave the atomic steps of any number of executions over the
shared store. -/

/-- Position of one execution inside the guard protocol of
`_check_and_notify`. -/
inductive Phase
  | ready        -- window judged due, about to run `find_one`
  | willInsert   -- `find_one` returned nothing, about to run `insert_one`
  | observed     -- `find_one` saw an existing record: returned, no send
  | claimed      -- `insert_one` succeeded: exclusive right to send
  | rejected     -- `insert_one` raised `DuplicateKeyError`: returned, no send
  | storeFailed  -- `insert_one` raised a transient error: returned, no send
  | sentDone     -- the claimed execution performed its single send
deriving DecidableEq, Repr

/-- One in-flight execution of the guard for some dispatch key. -/
structure GuardExec where
  key : String
  record : SentNotification
  phase : Phase
deriving DecidableEq, Repr

/-- Shared store plus every in-flight execution. -/
structure GuardSys where
  store : Store
  execs : List GuardExec
deriving DecidableEq, Repr

/-- Did this execution obtain (or already use) the exclusive claim? -/
def isClaimed (e : GuardExec) : Bool :=
  e.phase == .claimed || e.phase == .sentDone

/-- How many executions for key `k` ever claimed it. -/
def claimedCount (k : String) (sys : GuardSys) : Nat :=
  sys.execs.countP (fun e => e.key == k && isClaimed e)

/-- How many executions for key `k` performed their send. -/
def sentCount (k : String) (sys : GuardSys) : Nat :=
  sys.execs.countP (fun e => e.key == k && e.phase == .sentDone)

/-- Advance execution `e` by one atomic store step against `store`
(`fail` injects a transient store error into the insert). -/
def stepExec (store : Store) (e : GuardExec) (fail : Bool) : Store × GuardExec :=
  match e.phase with
  | .ready =>
    if hasKey store e.key then (store, { e with phase := .observed })
    else (store, { e with phase := .willInsert })
  | .willInsert =>
    if fail then (store, { e with phase := .storeFailed })
    else if hasKey store e.key then (store, { e with phase := .rejected })
    else (store ++ [e.record], { e with phase := .claimed })
  | .claimed => (store, { e with phase := .sentDone })
  | _ => (store, e)

/-- One scheduling step: pick execution `i` and advance it. -/
def stepSys (sys : GuardSys) (i : Nat) (fail : Bool) : GuardSys :=
  match sys.execs.get? i with
  | none => sys
  | some e =>
    { store := (stepExec sys.store e fail).1
      execs := sys.execs.set i (stepExec sys.store e fail).2 }

/-- Run an arbitrary interleaving schedule over the system. -/
def runSched (sys : GuardSys) : List (Nat × Bool) → GuardSys
  | [] => sys
  | (i, fail) :: rest => runSched (stepSys sys i fail) rest

/-- Protocol well-formedness: each execution inserts a record carrying its
own dispatch key (what `mkRecord` guarantees in `_check_and_notify`). -/
def guardWF (sys : GuardSys) : Prop :=
  ∀ e ∈ sys.execs, e.record.notification_key = e.key

/-- The inductive invariant of the guard protocol for key `k`. -/
def guardInv (k : String) (sys : GuardSys) : Prop :=
  guardWF sys ∧ claimedCount k sys ≤ 1 ∧
    (hasKey sys.store k = false → claimedCount k sys = 0)

/-- Two executions of the guard over an initially empty store, both for
the same dispatch key (a concrete two-instance race). -/
def guardDemo : GuardSys :=
  { store := []
    execs :=
      [⟨"k", mkRecord "k" 1 "Math" "10:30-12:00" 10 ⟨2025, 2, 5, 10, 25, 0, 0⟩, .ready⟩,
       ⟨"k", mkRecord "k" 1 "Math" "10:30-12:00" 10 ⟨2025, 2, 5, 10, 25, 0, 0⟩, .ready⟩] }

/-! ### `NotificationScheduler.start` -/

/-- The methods the class body of `NotificationScheduler` defines. -/
def schedulerMethods : List String :=
  ["__init__", "start", "stop", "check_and_send_notifications",
   "_check_user_classes", "_check_and_notify", "_get_week_number",
   "cleanup_old_notifications"]

/-- A trigger as configured by `start`. -/
inductive Trigger
  | intervalMinutes (n : Nat)
  | intervalHours (n : Nat)
  | cronDaily (hour minute : Nat)
deriving DecidableEq, Repr

/-- The three `add_job` calls of `start`, in source order:
(job id, handler attribute name, trigger). -/
def startJobs : List (String × String × Trigger) :=
  [("check_notifications", "check_and_send_notifications", .intervalMinutes 5),
   ("cleanup_notifications", "cleanup_old_notifications", .intervalHours 6),
   ("reset_daily_tasks", "reset_daily_task_counters", .cronDaily 0 0)]

/-- Outcome of running `start`: either every handler attribute resolved and
all jobs were registered, or attribute lookup raised `AttributeError` at
the first handler the object does not define (the jobs registered before
that point are kept, but `scheduler.start()` is never reached). -/
inductive StartResult
  | ok (registered : List String)
  | attributeError (registered : List String) (missing : String)
deriving DecidableEq, Repr

/-- Resolve the handler of each `add_job` call in order; `self.<name>` on a
method the class does not define raises `AttributeError`. -/
def registerJobs (registered : List String) :
    List (String × String × Trigger) → StartResult
  | [] => .ok registered
  | (jobId, handler, _) :: rest =>
    if schedulerMethods.contains handler then
      registerJobs (registered ++ [jobId]) rest
    else
      .attributeError registered handler

/-- `NotificationScheduler.start()`. -/
def startScheduler : StartResult :=
  registerJobs [] startJobs

/-! ## Theorems -/

/-- The microsecond window test is exactly the
`-0.5 <= time_diff_minutes < 5.5` comparison of the source. -/
theorem window_iff_timeDiff (now : DateTime) (sh sm L : Int) :
    inWindow (diffMicro now sh sm L) = true ↔
      (-(1 : ℚ)/2 ≤ timeDiffMinutes now sh sm L ∧ timeDiffMinutes now sh sm L < 11/2) := by
  have hpos : (0 : ℚ) < 60000000 := by norm_num
  have e1 : (-(1 : ℚ)/2) = (-30000000 : ℚ) / 60000000 := by norm_num
  have e2 : ((11 : ℚ)/2) = (330000000 : ℚ) / 60000000 := by norm_num
  unfold inWindow timeDiffMinutes
  rw [Bool.and_eq_true, decide_eq_true_eq, decide_eq_true_eq, e1, e2,
    div_le_div_iff_of_pos_right hpos, div_lt_div_iff_of_pos_right hpos]
  constructor
  · rintro ⟨h1, h2⟩
    exact ⟨by exact_mod_cast h1, by exact_mod_cast h2⟩
  · rintro ⟨h1, h2⟩
    exact ⟨by exact_mod_cast h1, by exact_mod_cast h2⟩

/-- Claim C3: the week-parity calculator is a pure function of the date
components only, returning 1 exactly on odd ISO-8601 week numbers and 2
exactly on even ones; a date in ISO week 5 (2025-02-01, which sits in a
week crossing the January/February boundary) maps to 1 and a date in ISO
week 6 (2025-02-05) maps to 2. -/
theorem claim3_week_parity_iso (y mo d h mi s mu h' mi' s' mu' : Int) :
    (getWeekNumber ⟨y, mo, d, h, mi, s, mu⟩ = 1 ↔ Odd (isoWeek y mo d)) ∧
    (getWeekNumber ⟨y, mo, d, h, mi, s, mu⟩ = 2 ↔ Even (isoWeek y mo d)) ∧
    getWeekNumber ⟨y, mo, d, h, mi, s, mu⟩ = getWeekNumber ⟨y, mo, d, h', mi', s', mu'⟩ ∧
    isoWeek 2025 2 1 = 5 ∧ getWeekNumber ⟨2025, 2, 1, 12, 0, 0, 0⟩ = 1 ∧
    isoWeek 2025 2 5 = 6 ∧ getWeekNumber ⟨2025, 2, 5, 23, 59, 59, 999999⟩ = 2 := by
  have hparity : ∀ w : Int, w % 2 = 1 ∨ w % 2 = 0 := by
    intro w
    rcases Int.emod_two_eq_zero_or_one w with hw | hw
    · exact Or.inr hw
    · exact Or.inl hw
  refine ⟨?_, ?_, rfl, by decide, by decide, by decide, by decide⟩
  · show (if isoWeek y mo d % 2 == 1 then (1 : Int) else 2) = 1 ↔ Odd (isoWeek y mo d)
    rcases hparity (isoWeek y mo d) with hw | hw <;>
      simp [hw, Int.odd_iff]
  · show (if isoWeek y mo d % 2 == 1 then (1 : Int) else 2) = 2 ↔ Even (isoWeek y mo d)
    rcases hparity (isoWeek y mo d) with hw | hw <;>
      simp [hw, Int.even_iff]

/-- Claim C8 (code bug in the source): `start()` tries to register three
jobs — the 5-minute evaluation tick, the 6-hour cleanup tick and the daily
midnight reset — but the handler of the third job,
`reset_daily_task_counters`, is defined nowhere on the scheduler class, so
attribute lookup raises `AttributeError` after the first two jobs are
added and `start` never completes. -/
theorem claim8_start_missing_daily_reset :
    startScheduler
      = .attributeError ["check_notifications", "cleanup_notifications"]
          "reset_daily_task_counters" ∧
    schedulerMethods.contains "reset_daily_task_counters" = false ∧
    startJobs.length = 3 ∧
    (startJobs.map (fun j => j.2.2))
      = [.intervalMinutes 5, .intervalHours 6, .cronDaily 0 0] := by
  refine ⟨by decide, by decide, by decide, by decide⟩

/-- The Mongo eligibility filter, spelled out field by field. -/
theorem eligibleFilter_eq (u : UserRecord) :
    eligibleFilter u = true ↔
      u.notifications_enabled = true ∧ u.group_id ≠ .missing ∧ u.group_id ≠ .null := by
  cases u with
  | mk tid en gid nt =>
    cases gid <;> simp [eligibleFilter]

/-- Claim C6 counterexample: a stored user with notifications enabled and
`group_id = ""` (present, non-null, but empty) passes the eligibility
query of `check_and_send_notifications` and is processed, although the
claim says no empty-string `group_id` user is processed. -/
theorem claim6_empty_group_counterexample :
    eligibleFilter ⟨77, true, .val "", none⟩ = true ∧
    specEligible ⟨77, true, .val "", none⟩ = false ∧
    processedUsers [⟨77, true, .val "", none⟩] = [⟨77, true, .val "", none⟩] := by
  refine ⟨by decide, by decide, by decide⟩

/-- Claim C6 as amended: the set of users a tick evaluates is exactly the
stored records with `notifications_enabled = true` and a `group_id` that
is present and non-null — the emptiness of the group string is NOT
checked, so empty-string groups are processed too; every user with
enabled notifications and a non-empty group is in particular processed. -/
theorem claim6_eligibility_amended (users : List UserRecord) (u : UserRecord) :
    (u ∈ processedUsers users ↔
      u ∈ users ∧ u.notifications_enabled = true ∧
        u.group_id ≠ .missing ∧ u.group_id ≠ .null) ∧
    (specEligible u = true → eligibleFilter u = true) := by
  constructor
  · rw [processedUsers, List.mem_filter, eligibleFilter_eq]
  · intro hs
    rw [eligibleFilter_eq]
    cases hg : u.group_id <;> simp [specEligible, hg] at hs ⊢
    exact hs.1

/-- Claim C6 amended, witness. -/
theorem claim6_eligibility_amended_witness :
    (⟨5, true, .val "g", none⟩ : UserRecord) ∈
        processedUsers [⟨5, true, .val "g", none⟩, ⟨6, true, .null, none⟩] ∧
    specEligible ⟨5, true, .val "g", none⟩ = true := by
  refine ⟨?_, by decide⟩
  exact (claim6_eligibility_amended
    [⟨5, true, .val "g", none⟩, ⟨6, true, .null, none⟩]
    ⟨5, true, .val "g", none⟩).1.mpr (by decide)

/-- Claim C9: the lead time the evaluator uses is exactly the user
record's `notification_time` when present — with no clamping to `[5, 30]`
(999 and 3 are used verbatim, and actually drive the due window) — and
defaults to 10 when absent. -/
theorem claim9_lead_time_verbatim (u : UserRecord) (v : Int) :
    leadOf { u with notification_time := some v } = v ∧
    leadOf { u with notification_time := none } = 10 ∧
    (∀ envs store events day now,
      checkUserClasses envs store u events day now
        = checkClassesList envs store u.telegram_id (leadOf u) now
            (events.filter (fun e => e.day == some day))) ∧
    leadOf ⟨5, true, .val "g", some 999⟩ = 999 ∧
    (checkAndNotify envOK [] 5 eveningEvent (leadOf ⟨5, true, .val "g", some 999⟩)
        ⟨2025, 2, 5, 3, 21, 0, 0⟩).outcome = .sent true ∧
    leadOf ⟨5, true, .val "g", some 3⟩ = 3 ∧
    (checkAndNotify envOK [] 5 sampleEvent (leadOf ⟨5, true, .val "g", some 3⟩)
        ⟨2025, 2, 5, 10, 27, 0, 0⟩).outcome = .sent true := by
  refine ⟨rfl, rfl, fun _ _ _ _ _ => rfl, by decide, by decide, by decide, by decide⟩

/-- Under a well-formed, valid start time, `_check_and_notify` reduces to
the window test followed by the due path. -/
theorem checkAndNotify_parsed (env : Env) (store : Store) (tid : Int) (ev : ClassEvent)
    (L : Int) (now : DateTime) (ts : String) (sh sm : Int)
    (htime : ev.time = some ts) (hne : ¬ ts = "") (hdash : pyContains ts '-' = true)
    (hparse : parseStartTime (startTimeStrOf ts) = some (sh, sm))
    (hsh0 : 0 ≤ sh) (hsh1 : sh ≤ 23) (hsm0 : 0 ≤ sm) (hsm1 : sm ≤ 59) :
    checkAndNotify env store tid ev L now =
      if inWindow (diffMicro now sh sm L) then
        duePath env store tid (ev.discipline.getD "Unknown") (startTimeStrOf ts) ts L now
      else ⟨store, .notDue, []⟩ := by
  unfold checkAndNotify
  rw [htime]
  simp only [Option.getD_some]
  have h1 : (decide (ts = "") || !pyContains ts '-') = false := by
    rw [hdash]
    simp [hne]
  rw [h1, hparse]
  have h2 : (!(decide (0 ≤ sh) && decide (sh ≤ 23) && decide (0 ≤ sm) && decide (sm ≤ 59)))
      = false := by
    simp [hsh0, hsh1, hsm0, hsm1]
  simp only [h2, Bool.false_eq_true, if_false]

/-- Once a class is judged due, the evaluation never reports `notDue`. -/
theorem duePath_outcome_ne_notDue (env : Env) (store : Store) (tid : Int)
    (d s ts : String) (L : Int) (now : DateTime) :
    (duePath env store tid d s ts L now).outcome ≠ .notDue := by
  unfold duePath dueKeyed
  by_cases hk : hasKey store (notificationKey tid d s (formatDate now)) = true
  · rw [if_pos hk]
    simp
  · rw [if_neg hk]
    rcases htry : tryInsert env.insertFails store
        (mkRecord (notificationKey tid d s (formatDate now)) tid d ts L now) with ⟨res, s1⟩
    cases res
    · dsimp only
      split_ifs <;> simp
    · simp
    · simp

/-- Claim C4: with a parsed, valid start time, the class is judged due
(the run does anything beyond returning `notDue`) exactly when
`-0.5 ≤ deltaMinutes < 5.5`; concretely, `deltaMinutes = -0.51` is not
due, `-0.5` is due, `5.49` is due, `5.5` is not due. -/
theorem claim4_due_window (env : Env) (store : Store) (tid : Int) (ev : ClassEvent)
    (L : Int) (now : DateTime) (ts : String) (sh sm : Int)
    (htime : ev.time = some ts) (hne : ¬ ts = "") (hdash : pyContains ts '-' = true)
    (hparse : parseStartTime (startTimeStrOf ts) = some (sh, sm))
    (hsh0 : 0 ≤ sh) (hsh1 : sh ≤ 23) (hsm0 : 0 ≤ sm) (hsm1 : sm ≤ 59) :
    ((checkAndNotify env store tid ev L now).outcome ≠ .notDue ↔
      (-(1 : ℚ)/2 ≤ timeDiffMinutes now sh sm L ∧ timeDiffMinutes now sh sm L < 11/2)) ∧
    timeDiffMinutes ⟨2025, 2, 5, 10, 19, 29, 400000⟩ 10 30 10 = -51/100 ∧
    (checkAndNotify envOK [] 1 sampleEvent 10 ⟨2025, 2, 5, 10, 19, 29, 400000⟩).outcome
      = .notDue ∧
    timeDiffMinutes ⟨2025, 2, 5, 10, 19, 30, 0⟩ 10 30 10 = -1/2 ∧
    (checkAndNotify envOK [] 1 sampleEvent 10 ⟨2025, 2, 5, 10, 19, 30, 0⟩).outcome
      = .sent true ∧
    timeDiffMinutes ⟨2025, 2, 5, 10, 25, 29, 400000⟩ 10 30 10 = 549/100 ∧
    (checkAndNotify envOK [] 1 sampleEvent 10 ⟨2025, 2, 5, 10, 25, 29, 400000⟩).outcome
      = .sent true ∧
    timeDiffMinutes ⟨2025, 2, 5, 10, 25, 30, 0⟩ 10 30 10 = 11/2 ∧
    (checkAndNotify envOK [] 1 sampleEvent 10 ⟨2025, 2, 5, 10, 25, 30, 0⟩).outcome
      = .notDue := by
  refine ⟨?_, ?_, by decide, ?_, by decide, ?_, by decide, ?_, by decide⟩
  · rw [checkAndNotify_parsed env store tid ev L now ts sh sm htime hne hdash hparse
      hsh0 hsh1 hsm0 hsm1]
    by_cases hw : inWindow (diffMicro now sh sm L) = true
    · rw [if_pos hw]
      exact iff_of_true
        (duePath_outcome_ne_notDue env store tid (ev.discipline.getD "Unknown")
          (startTimeStrOf ts) ts L now)
        ((window_iff_timeDiff now sh sm L).mp hw)
    · rw [if_neg hw]
      apply iff_of_false
      · intro h
        exact h rfl
      · intro hcontra
        exact hw ((window_iff_timeDiff now sh sm L).mpr hcontra)
  · norm_num [timeDiffMinutes, diffMicro, microOfDay]
  · norm_num [timeDiffMinutes, diffMicro, microOfDay]
  · norm_num [timeDiffMinutes, diffMicro, microOfDay]
  · norm_num [timeDiffMinutes, diffMicro, microOfDay]

/-- Every trace of the due path is send-guarded: the single send event
comes strictly after an `insert_one` of a `success = None` record for the
dispatch key succeeded. -/
theorem sendsGuarded_duePath (env : Env) (store : Store) (tid : Int)
    (d s ts : String) (L : Int) (now : DateTime) :
    sendsGuarded (notificationKey tid d s (formatDate now)) false
      (duePath env store tid d s ts L now).events = true := by
  unfold duePath dueKeyed
  by_cases hk : hasKey store (notificationKey tid d s (formatDate now)) = true
  · rw [if_pos hk]
    rfl
  · rw [if_neg hk]
    rcases htry : tryInsert env.insertFails store
        (mkRecord (notificationKey tid d s (formatDate now)) tid d ts L now) with ⟨res, s1⟩
    cases res
    · split_ifs <;> simp [sendsGuarded, mkRecord]
    · rfl
    · rfl

/-- Claim C2: in every run of `_check_and_notify`, whatever the store, the
environment and the inputs, the Notification Channel send event appears in
the trace only after a `sent_notifications` record for that class's
dispatch key has been successfully inserted with `success = None`; no
path reaches the send without the insert. -/
theorem claim2_record_created_before_send (env : Env) (store : Store) (tid : Int)
    (ev : ClassEvent) (L : Int) (now : DateTime) :
    sendsGuarded (dispatchKeyOf tid ev now) false
      (checkAndNotify env store tid ev L now).events = true := by
  unfold checkAndNotify
  dsimp only
  split
  · rfl
  · split
    · rfl
    · split
      · rfl
      · split
        · exact sendsGuarded_duePath env store tid (ev.discipline.getD "Unknown")
            (startTimeStrOf (ev.time.getD "")) (ev.time.getD "") L now
        · rfl

/-- Under a transient insert failure the due path either observes an
existing record or aborts with `insertError`; either way the store is
untouched. -/
theorem duePath_insertFails_cases (env : Env) (store : Store) (tid : Int)
    (d s ts : String) (L : Int) (now : DateTime) (hf : env.insertFails = true) :
    duePath env store tid d s ts L now
        = ⟨store, .alreadySent, [.findOp (notificationKey tid d s (formatDate now)) true]⟩
      ∨ duePath env store tid d s ts L now
        = ⟨store, .insertError,
            [.findOp (notificationKey tid d s (formatDate now)) false,
             .insertErr (notificationKey tid d s (formatDate now))]⟩ := by
  unfold duePath dueKeyed
  by_cases hk : hasKey store (notificationKey tid d s (formatDate now)) = true
  · left
    rw [if_pos hk]
  · right
    rw [if_neg hk]
    simp [tryInsert, hf]

/-- Claim C7: when the claim-step insert fails with an error other than a
duplicate-key violation, the run attempts no send, inserts no record and
leaves the store exactly as it was (so a later tick may retry); and the
per-class and per-user loops always produce one outcome per class and one
outcome list per user, whatever the per-call environments do, so the
failure aborts nothing else. -/
theorem claim7_claim_error_fail_open (env : Env) (store : Store) (tid : Int)
    (ev : ClassEvent) (L : Int) (now : DateTime) (hf : env.insertFails = true) :
    (checkAndNotify env store tid ev L now).store = store ∧
    (∀ t d l, Event.sendOp t d l ∉ (checkAndNotify env store tid ev L now).events) ∧
    (∀ r, Event.insertOk r ∉ (checkAndNotify env store tid ev L now).events) ∧
    (∀ envs store' tid' L' now' cs,
      ((checkClassesList envs store' tid' L' now' cs).2).length = cs.length) ∧
    (∀ envs store' day now' pairs,
      ((runTick envs store' day now' pairs).2).length = pairs.length) := by
  have hdue := duePath_insertFails_cases env store tid (ev.discipline.getD "Unknown")
    (startTimeStrOf (ev.time.getD "")) (ev.time.getD "") L now hf
  refine ⟨?_, ?_, ?_, ?_, ?_⟩
  · unfold checkAndNotify
    dsimp only
    split
    · rfl
    · split
      · rfl
      · split
        · rfl
        · split
          · rcases hdue with h | h <;> rw [h]
          · rfl
  · intro t d l
    unfold checkAndNotify
    dsimp only
    split
    · simp
    · split
      · simp
      · split
        · simp
        · split
          · rcases hdue with h | h <;> rw [h] <;> simp
          · simp
  · intro r
    unfold checkAndNotify
    dsimp only
    split
    · simp
    · split
      · simp
      · split
        · simp
        · split
          · rcases hdue with h | h <;> rw [h] <;> simp
          · simp
  · intro envs store' tid' L' now' cs
    induction cs generalizing envs store' with
    | nil => rfl
    | cons c rest ih =>
      have h2 := ih (fun i => envs (i + 1))
        (checkAndNotify (envs 0) store' tid' c L' now').store
      simp only [checkClassesList]
      rcases hrec : checkClassesList (fun i => envs (i + 1))
          (checkAndNotify (envs 0) store' tid' c L' now').store tid' L' now' rest
        with ⟨s1, outs⟩
      rw [hrec] at h2
      simpa using h2
  · intro envs store' day now' pairs
    induction pairs generalizing envs store' with
    | nil => rfl
    | cons p rest ih =>
      rcases p with ⟨u, evs⟩
      simp only [runTick]
      rcases hcu : checkUserClasses (envs 0) store' u evs day now' with ⟨s1, outs⟩
      rcases hrec : runTick (fun i => envs (i + 1)) s1 day now' rest with ⟨s2, rests⟩
      have h2 := ih (fun i => envs (i + 1)) s1
      rw [hrec] at h2
      simpa using h2

/-- Claim C7, witness at a concrete input. -/
theorem claim7_claim_error_fail_open_witness :
    (⟨true, false, true, false⟩ : Env).insertFails = true ∧
    (checkAndNotify ⟨true, false, true, false⟩ [] 1 sampleEvent 10
      ⟨2025, 2, 5, 10, 25, 0, 0⟩).store = [] :=
  ⟨rfl, (claim7_claim_error_fail_open ⟨true, false, true, false⟩ [] 1 sampleEvent 10
    ⟨2025, 2, 5, 10, 25, 0, 0⟩ rfl).1⟩

/-- Every run of `_check_and_notify` is one of the four early returns or
the due path. -/
theorem checkAndNotify_cases (env : Env) (store : Store) (tid : Int)
    (ev : ClassEvent) (L : Int) (now : DateTime) :
    checkAndNotify env store tid ev L now = ⟨store, .invalidTime, []⟩
    ∨ checkAndNotify env store tid ev L now = ⟨store, .parseFail, []⟩
    ∨ checkAndNotify env store tid ev L now = ⟨store, .replaceError, []⟩
    ∨ checkAndNotify env store tid ev L now = ⟨store, .notDue, []⟩
    ∨ checkAndNotify env store tid ev L now
        = duePath env store tid (ev.discipline.getD "Unknown")
            (startTimeStrOf (ev.time.getD "")) (ev.time.getD "") L now := by
  unfold checkAndNotify
  dsimp only
  split
  · exact Or.inl rfl
  · split
    · exact Or.inr (Or.inl rfl)
    · split
      · exact Or.inr (Or.inr (Or.inl rfl))
      · split
        · exact Or.inr (Or.inr (Or.inr (Or.inr rfl)))
        · exact Or.inr (Or.inr (Or.inr (Or.inl rfl)))

/-- While a record for the dispatch key exists, a run of
`_check_and_notify` leaves the store alone and performs no send, no
insert and no outcome write. -/
theorem checkAndNotify_keyPresent (env : Env) (store : Store) (tid : Int)
    (ev : ClassEvent) (L : Int) (now : DateTime)
    (hk : hasKey store (dispatchKeyOf tid ev now) = true) :
    (checkAndNotify env store tid ev L now).store = store ∧
    (∀ t d l, Event.sendOp t d l ∉ (checkAndNotify env store tid ev L now).events) ∧
    (∀ r, Event.insertOk r ∉ (checkAndNotify env store tid ev L now).events) ∧
    (∀ k b, Event.updateOk k b ∉ (checkAndNotify env store tid ev L now).events) := by
  have hk' : hasKey store (notificationKey tid (ev.discipline.getD "Unknown")
      (startTimeStrOf (ev.time.getD "")) (formatDate now)) = true := hk
  have hdp : duePath env store tid (ev.discipline.getD "Unknown")
      (startTimeStrOf (ev.time.getD "")) (ev.time.getD "") L now
      = ⟨store, .alreadySent,
          [.findOp (notificationKey tid (ev.discipline.getD "Unknown")
            (startTimeStrOf (ev.time.getD "")) (formatDate now)) true]⟩ := by
    unfold duePath dueKeyed
    rw [if_pos hk']
  rcases checkAndNotify_cases env store tid ev L now with h | h | h | h | h <;>
    rw [h] <;>
    first
      | exact ⟨rfl, by simp, by simp, by simp⟩
      | (rw [hdp]; exact ⟨rfl, by simp, by simp, by simp⟩)

/-- With a raising channel, the due path either returns before the send or
claims the key and then has the raise caught, leaving the inserted record
with `success = None`. -/
theorem duePath_sendRaises_cases (env : Env) (store : Store) (tid : Int)
    (d s ts : String) (L : Int) (now : DateTime) (hr : env.sendRaises = true) :
    duePath env store tid d s ts L now
        = ⟨store, .alreadySent, [.findOp (notificationKey tid d s (formatDate now)) true]⟩
      ∨ duePath env store tid d s ts L now
        = ⟨store, .insertError,
            [.findOp (notificationKey tid d s (formatDate now)) false,
             .insertErr (notificationKey tid d s (formatDate now))]⟩
      ∨ duePath env store tid d s ts L now
        = ⟨store ++ [mkRecord (notificationKey tid d s (formatDate now)) tid d ts L now],
            .sendRaisedCaught,
            [.findOp (notificationKey tid d s (formatDate now)) false,
             .insertOk (mkRecord (notificationKey tid d s (formatDate now)) tid d ts L now),
             .sendOp tid d L, .sendRaised]⟩ := by
  unfold duePath dueKeyed
  by_cases hk : hasKey store (notificationKey tid d s (formatDate now)) = true
  · left
    rw [if_pos hk]
  · right
    rw [if_neg hk]
    have hk0 : hasKey store (notificationKey tid d s (formatDate now)) = false :=
      Bool.eq_false_iff.mpr (fun hc => hk hc)
    cases henv : env.insertFails
    · right
      simp [tryInsert, henv, hk0, hr, mkRecord]
    · left
      simp [tryInsert, henv]

/-- Claim C5 counterexample: with a channel that raises a transport error
after the claim succeeded, the run ends with the raise caught and the
stored record still carrying `success = None` — the outcome is NOT
recorded as `false` (the `update_one` write-back is skipped by the raise). -/
theorem claim5_raise_counterexample :
    (checkAndNotify envRaise [] 1 sampleEvent 10 ⟨2025, 2, 5, 10, 25, 0, 0⟩).outcome
        = .sendRaisedCaught ∧
    ((checkAndNotify envRaise [] 1 sampleEvent 10 ⟨2025, 2, 5, 10, 25, 0, 0⟩).events.contains
        Event.sendRaised) = true ∧
    ((checkAndNotify envRaise [] 1 sampleEvent 10 ⟨2025, 2, 5, 10, 25, 0, 0⟩).store.map
        (fun r => r.success)) = [none] :=
  ⟨by decide, by decide, by decide⟩

/-- Claim C5 as amended: when the channel raises after a successful claim,
the outer exception handler catches it and the `success` write-back is
skipped, so the dispatch record keeps `outcome` absent (`None`) — it is
NOT recorded as `false`; the record nonetheless blocks the key, so the
send is not retried within the window (any run that finds the key present
performs no send). `outcome = false` is written only when the channel
itself returns `delivered = false`. -/
theorem claim5_raise_amended (env : Env) (store : Store) (tid : Int)
    (ev : ClassEvent) (L : Int) (now : DateTime) (hr : env.sendRaises = true) :
    (∀ k b, Event.updateOk k b ∉ (checkAndNotify env store tid ev L now).events) ∧
    (∀ r', r' ∈ (checkAndNotify env store tid ev L now).store →
      r' ∈ store ∨ r'.success = none) ∧
    ((checkAndNotify env store tid ev L now).outcome = .sendRaisedCaught →
      hasKey (checkAndNotify env store tid ev L now).store (dispatchKeyOf tid ev now)
        = true) ∧
    (∀ env2 store2 tid2 ev2 L2 now2,
      hasKey store2 (dispatchKeyOf tid2 ev2 now2) = true →
      ∀ t d l, Event.sendOp t d l ∉ (checkAndNotify env2 store2 tid2 ev2 L2 now2).events) := by
  have hdue := duePath_sendRaises_cases env store tid (ev.discipline.getD "Unknown")
    (startTimeStrOf (ev.time.getD "")) (ev.time.getD "") L now hr
  refine ⟨?_, ?_, ?_, ?_⟩
  · intro k b
    rcases checkAndNotify_cases env store tid ev L now with h | h | h | h | h <;> rw [h]
    · simp
    · simp
    · simp
    · simp
    · rcases hdue with h2 | h2 | h2 <;> rw [h2] <;> simp
  · intro r' hmem
    rcases checkAndNotify_cases env store tid ev L now with h | h | h | h | h <;>
      rw [h] at hmem
    · exact Or.inl hmem
    · exact Or.inl hmem
    · exact Or.inl hmem
    · exact Or.inl hmem
    · rcases hdue with h2 | h2 | h2 <;> rw [h2] at hmem
      · exact Or.inl hmem
      · exact Or.inl hmem
      · rcases List.mem_append.mp hmem with hm | hm
        · exact Or.inl hm
        · right
          rcases List.mem_singleton.mp hm with rfl
          rfl
  · intro hout
    rcases checkAndNotify_cases env store tid ev L now with h | h | h | h | h <;> rw [h] at hout ⊢
    · cases hout
    · cases hout
    · cases hout
    · cases hout
    · rcases hdue with h2 | h2 | h2 <;> rw [h2] at hout ⊢
      · cases hout
      · cases hout
      · simp [hasKey, List.any_append, mkRecord, dispatchKeyOf]
  · intro env2 store2 tid2 ev2 L2 now2 hk2
    exact (checkAndNotify_keyPresent env2 store2 tid2 ev2 L2 now2 hk2).2.1

/-- Claim C5 amended, witness at a concrete input. -/
theorem claim5_raise_amended_witness :
    envRaise.sendRaises = true ∧
    (∀ k b, Event.updateOk k b ∉
      (checkAndNotify envRaise [] 1 sampleEvent 10 ⟨2025, 2, 5, 10, 25, 0, 0⟩).events) :=
  ⟨rfl, (claim5_raise_amended envRaise [] 1 sampleEvent 10
    ⟨2025, 2, 5, 10, 25, 0, 0⟩ rfl).1⟩

/-- Claim C4, witness at a concrete input. -/
theorem claim4_due_window_witness :
    sampleEvent.time = some "10:30-12:00" ∧
    parseStartTime (startTimeStrOf "10:30-12:00") = some (10, 30) ∧
    ((checkAndNotify envOK [] 1 sampleEvent 10 ⟨2025, 2, 5, 10, 25, 0, 0⟩).outcome
        ≠ .notDue ↔
      (-(1 : ℚ)/2 ≤ timeDiffMinutes ⟨2025, 2, 5, 10, 25, 0, 0⟩ 10 30 10 ∧
        timeDiffMinutes ⟨2025, 2, 5, 10, 25, 0, 0⟩ 10 30 10 < 11/2)) :=
  ⟨rfl, by decide,
    (claim4_due_window envOK [] 1 sampleEvent 10 ⟨2025, 2, 5, 10, 25, 0, 0⟩
      "10:30-12:00" 10 30 rfl (by decide) (by decide) (by decide)
      (by decide) (by decide) (by decide) (by decide)).1⟩

/-- Replacing an element by one the predicate values identically keeps the
count. -/
theorem countP_set_congr {α : Type} (p : α → Bool) (l : List α) (i : Nat) (e a : α)
    (h : l.get? i = some e) (hpa : p a = p e) :
    (l.set i a).countP p = l.countP p := by
  induction l generalizing i with
  | nil => cases h
  | cons x xs ih =>
    cases i with
    | zero =>
      simp only [List.get?] at h
      injection h with h
      subst h
      simp [List.countP_cons, hpa]
    | succ n =>
      simp only [List.get?] at h
      simp [List.countP_cons, ih n h]

/-- Replacing a non-counted element by a counted one raises the count by
one. -/
theorem countP_set_incr {α : Type} (p : α → Bool) (l : List α) (i : Nat) (e a : α)
    (h : l.get? i = some e) (hpe : p e = false) (hpa : p a = true) :
    (l.set i a).countP p = l.countP p + 1 := by
  induction l generalizing i with
  | nil => cases h
  | cons x xs ih =>
    cases i with
    | zero =>
      simp only [List.get?] at h
      injection h with h
      subst h
      simp [List.countP_cons, hpa, hpe]
    | succ n =>
      simp only [List.get?] at h
      simp only [List.set]
      rw [List.countP_cons, List.countP_cons, ih n h]
      omega

/-- A guard step never changes an execution's key. -/
theorem stepExec_key (store : Store) (e : GuardExec) (fail : Bool) :
    (stepExec store e fail).2.key = e.key := by
  unfold stepExec
  cases e.phase <;> split_ifs <;> rfl

/-- A guard step never changes an execution's record. -/
theorem stepExec_record (store : Store) (e : GuardExec) (fail : Bool) :
    (stepExec store e fail).2.record = e.record := by
  unfold stepExec
  cases e.phase <;> split_ifs <;> rfl

/-- Appending a record reaches exactly the old keys plus the new one. -/
theorem hasKey_append (store : Store) (r : SentNotification) (k : String) :
    hasKey (store ++ [r]) k = (hasKey store k || (r.notification_key == k)) := by
  simp [hasKey, List.any_append]

/-- A guard step either leaves the store alone and the execution's
claimed-status unchanged, or it is the successful insert: the execution
was at `willInsert`, no failure was injected, the key was absent, the
record is appended and the execution becomes `claimed`. -/
theorem stepExec_cases (store : Store) (e : GuardExec) (fail : Bool) :
    ((stepExec store e fail).1 = store ∧
      isClaimed (stepExec store e fail).2 = isClaimed e)
    ∨ (e.phase = .willInsert ∧ fail = false ∧ hasKey store e.key = false ∧
        (stepExec store e fail).1 = store ++ [e.record] ∧
        (stepExec store e fail).2 = { e with phase := .claimed }) := by
  unfold stepExec
  cases hph : e.phase <;> dsimp only
  case ready =>
    split_ifs <;> exact Or.inl ⟨rfl, by simp only [isClaimed, hph]; decide⟩
  case willInsert =>
    by_cases hf : fail = true
    · rw [if_pos hf]
      exact Or.inl ⟨rfl, by simp only [isClaimed, hph]; decide⟩
    · rw [if_neg hf]
      by_cases hk : hasKey store e.key = true
      · rw [if_pos hk]
        exact Or.inl ⟨rfl, by simp only [isClaimed, hph]; decide⟩
      · rw [if_neg hk]
        exact Or.inr ⟨rfl, by simpa using hf, Bool.eq_false_iff.mpr hk, rfl, rfl⟩
  case observed => exact Or.inl ⟨rfl, rfl⟩
  case claimed => exact Or.inl ⟨rfl, by simp only [isClaimed, hph]; decide⟩
  case rejected => exact Or.inl ⟨rfl, rfl⟩
  case storeFailed => exact Or.inl ⟨rfl, rfl⟩
  case sentDone => exact Or.inl ⟨rfl, rfl⟩

/-- Each interleaving step preserves the guard invariant. -/
theorem stepSys_preserves_inv (k : String) (sys : GuardSys) (i : Nat) (fail : Bool)
    (h : guardInv k sys) : guardInv k (stepSys sys i fail) := by
  obtain ⟨hwf, hle, hzero⟩ := h
  unfold stepSys
  cases hget : sys.execs.get? i with
  | none => exact ⟨hwf, hle, hzero⟩
  | some e =>
    dsimp only
    have hmem : e ∈ sys.execs := List.get?_mem hget
    have hrec : e.record.notification_key = e.key := hwf e hmem
    have hwf1 : guardWF
        { store := (stepExec sys.store e fail).1
          execs := sys.execs.set i (stepExec sys.store e fail).2 } := by
      intro x hx
      rcases List.mem_or_eq_of_mem_set hx with hx1 | hx1
      · exact hwf x hx1
      · rw [hx1, stepExec_key, stepExec_record]
        exact hrec
    refine ⟨hwf1, ?_, ?_⟩
    all_goals
      simp only [guardInv, claimedCount, hasKey] at hle hzero ⊢
    all_goals
      rcases stepExec_cases sys.store e fail with ⟨hs, hc⟩ | ⟨hph, hf, hk0, hs, he2⟩
    · rw [countP_set_congr _ _ _ e _ hget (by rw [stepExec_key, hc])]
      exact hle
    · rw [he2]
      by_cases hek : (e.key == k) = true
      · have hekk : e.key = k := eq_of_beq hek
        have hcnt := hzero (by rw [← hekk]; simpa [hasKey] using hk0)
        rw [countP_set_incr _ _ _ e _ hget (by simp [isClaimed, hph])
          (by simp [isClaimed, hek]), hcnt]
      · rw [countP_set_congr _ _ _ e _ hget
          (by simp [isClaimed, Bool.eq_false_iff.mpr hek])]
        exact hle
    · rw [countP_set_congr _ _ _ e _ hget (by rw [stepExec_key, hc]), hs]
      exact hzero
    · intro hfalse
      rw [hs] at hfalse
      have hfk : (e.record.notification_key == k) = false := by
        rcases hx : sys.store.any (fun r => r.notification_key == k) with _ | _
        · simpa [hasKey, List.any_append, hx] using hfalse
        · simp [hasKey, List.any_append, hx] at hfalse
      rw [he2]
      by_cases hek : (e.key == k) = true
      · rw [hrec, hek] at hfk
        cases hfk
      · rw [countP_set_congr _ _ _ e _ hget
          (by simp [isClaimed, Bool.eq_false_iff.mpr hek])]
        apply hzero
        simpa [hasKey, List.any_append, hfk] using hfalse

/-- The guard invariant is preserved along any interleaving schedule. -/
theorem runSched_preserves_inv (k : String) (sched : List (Nat × Bool)) (sys : GuardSys)
    (h : guardInv k sys) : guardInv k (runSched sys sched) := by
  induction sched generalizing sys with
  | nil => exact h
  | cons step rest ih =>
    rcases step with ⟨i, fail⟩
    exact ih _ (stepSys_preserves_inv k sys i fail h)

/-- Claim C1: for a dispatch key `k`, across any number of guard
executions (repeated ticks as well as interleaved executions from several
scheduler instances sharing the store, under any schedule and any injected
transient insert failures), at most one execution ever reaches `claimed` —
the successful `insert_one` under the unique index — and sends happen only
from that claimed execution: every non-claimed execution has performed no
send. -/
theorem claim1_dispatch_guard_at_most_one_claim (sys : GuardSys)
    (sched : List (Nat × Bool)) (k : String) (hwf : guardWF sys)
    (hready : ∀ e ∈ sys.execs, e.phase = Phase.ready) :
    claimedCount k (runSched sys sched) ≤ 1 ∧
    sentCount k (runSched sys sched) ≤ claimedCount k (runSched sys sched) ∧
    (∀ e ∈ (runSched sys sched).execs, isClaimed e = false → e.phase ≠ .sentDone) := by
  have hz : claimedCount k sys = 0 := by
    simp only [claimedCount]
    rw [List.countP_eq_zero]
    intro e he
    simp [isClaimed, hready e he]
  have hinv := runSched_preserves_inv k sched sys ⟨hwf, by omega, fun _ => hz⟩
  refine ⟨hinv.2.1, ?_, ?_⟩
  · simp only [sentCount, claimedCount]
    apply List.countP_mono_left
    intro e _ hp
    simp only [Bool.and_eq_true] at hp ⊢
    exact ⟨hp.1, by simp [isClaimed, hp.2]⟩
  · intro e _ hcl hphase
    simp [isClaimed, hphase] at hcl

/-- Claim C1, witness: a concrete two-instance race over one key. -/
theorem claim1_dispatch_guard_witness :
    guardWF guardDemo ∧ (∀ e ∈ guardDemo.execs, e.phase = Phase.ready) ∧
    claimedCount "k"
      (runSched guardDemo [(0, false), (1, false), (0, false), (1, false)]) ≤ 1 :=
  ⟨by unfold guardWF; decide, by decide,
    (claim1_dispatch_guard_at_most_one_claim guardDemo
      [(0, false), (1, false), (0, false), (1, false)] "k"
      (by unfold guardWF; decide) (by decide)).1⟩

/-! ### Injectivity of the dispatch-key encoding -/

/-- Horner decode of a most-significant-first decimal digit string. -/
def decodeDigits (l : List Char) : Nat :=
  l.foldl (fun acc c => 10 * acc + (c.toNat - 48)) 0

/-- Decode of a Python-rendered integer (optional leading minus). -/
def decodeIntChars : List Char → Int
  | [] => 0
  | c :: cs => if c = '-' then -(decodeDigits cs : Int) else (decodeDigits (c :: cs) : Int)

/-- Strings are equal when their character lists are. -/
theorem string_data_inj {a b : String} (h : a.data = b.data) : a = b := by
  cases a
  cases b
  exact congrArg String.mk h

/-- Horner folding the rendered digits of `n` onto accumulator `a`
recovers `a * 10 ^ len + n`. -/
theorem natDigitsRevAux_decode : ∀ (fuel n a : Nat), n ≤ fuel →
    List.foldl (fun acc c => 10 * acc + (c.toNat - 48)) a
        ((natDigitsRevAux fuel n).reverse)
      = a * 10 ^ (natDigitsRevAux fuel n).length + n := by
  intro fuel
  induction fuel with
  | zero =>
    intro n a hn
    interval_cases n
    simp [natDigitsRevAux]
  | succ f ih =>
    intro n a hn
    cases n with
    | zero => simp [natDigitsRevAux]
    | succ m =>
      have hdiv : (m + 1) / 10 ≤ f := by
        have h1 : (m + 1) / 10 < m + 1 := Nat.div_lt_self (Nat.succ_pos m) (by omega)
        omega
      have hdigit : ∀ d : Nat, d < 10 → (Nat.digitChar d).toNat - 48 = d := by decide
      have hmod : (m + 1) % 10 < 10 := Nat.mod_lt _ (by omega)
      simp only [natDigitsRevAux, List.reverse_cons, List.foldl_append, List.foldl_cons,
        List.foldl_nil, List.length_cons]
      rw [ih ((m + 1) / 10) a hdiv, hdigit _ hmod]
      calc 10 * (a * 10 ^ (natDigitsRevAux f ((m + 1) / 10)).length + (m + 1) / 10)
            + (m + 1) % 10
          = a * (10 ^ (natDigitsRevAux f ((m + 1) / 10)).length * 10)
              + (10 * ((m + 1) / 10) + (m + 1) % 10) := by ring
        _ = a * 10 ^ ((natDigitsRevAux f ((m + 1) / 10)).length + 1) + (m + 1) := by
            rw [pow_succ, Nat.div_add_mod]

/-- Decoding inverts the decimal rendering of naturals. -/
theorem decodeDigits_pyStrNat (n : Nat) : decodeDigits (pyStrNat n).data = n := by
  unfold pyStrNat
  by_cases h : n = 0
  · subst h
    decide
  · rw [if_neg h]
    have := natDigitsRevAux_decode n n 0 le_rfl
    simpa [decodeDigits] using this

/-- Every character the natural renderer emits is a decimal digit. -/
theorem natDigitsRevAux_digits : ∀ (fuel n : Nat), ∀ c ∈ natDigitsRevAux fuel n,
    c.isDigit = true := by
  intro fuel
  induction fuel with
  | zero => intro n c hc; cases hc
  | succ f ih =>
    intro n c hc
    cases n with
    | zero => cases hc
    | succ m =>
      simp only [natDigitsRevAux, List.mem_cons] at hc
      rcases hc with rfl | hc
      · have hmod : (m + 1) % 10 < 10 := Nat.mod_lt _ (by omega)
        exact (by decide : ∀ d : Nat, d < 10 → (Nat.digitChar d).isDigit = true) _ hmod
      · exact ih _ c hc

/-- Every character of `pyStrNat n` is a decimal digit. -/
theorem pyStrNat_digits (n : Nat) : ∀ c ∈ (pyStrNat n).data, c.isDigit = true := by
  unfold pyStrNat
  by_cases h : n = 0
  · subst h
    decide
  · rw [if_neg h]
    intro c hc
    exact natDigitsRevAux_digits n n c (List.mem_reverse.mp hc)

/-- Decode of a minus-prefixed digit list. -/
theorem decodeIntChars_cons_neg (cs : List Char) :
    decodeIntChars ('-' :: cs) = -(decodeDigits cs : Int) := by
  simp [decodeIntChars]

/-- Decoding inverts the decimal rendering of integers. -/
theorem decodeIntChars_pyStrInt (i : Int) : decodeIntChars (pyStrInt i).data = i := by
  unfold pyStrInt
  by_cases h : i < 0
  · rw [if_pos h]
    have hdata : ("-" ++ pyStrNat (-i).toNat).data = '-' :: (pyStrNat (-i).toNat).data := rfl
    rw [hdata, decodeIntChars_cons_neg, decodeDigits_pyStrNat]
    omega
  · rw [if_neg h]
    cases hdata : (pyStrNat i.toNat).data with
    | nil =>
      exfalso
      have h0 := decodeDigits_pyStrNat i.toNat
      rw [hdata] at h0
      have hne : i.toNat = 0 := by simpa [decodeDigits] using h0.symm
      have hi : i = 0 := by omega
      subst hi
      simp [pyStrNat] at hdata
    | cons c cs =>
      have hdig : c.isDigit = true := by
        apply pyStrNat_digits i.toNat
        rw [hdata]
        exact List.mem_cons_self c cs
      have hcne : ¬ c = '-' := by
        intro hcontra
        rw [hcontra] at hdig
        exact absurd hdig (by decide)
      simp only [decodeIntChars, if_neg hcne]
      rw [← hdata, decodeDigits_pyStrNat]
      omega

/-- Python decimal rendering of integers is injective. -/
theorem pyStrInt_inj {a b : Int} (h : (pyStrInt a).data = (pyStrInt b).data) : a = b := by
  have ha := decodeIntChars_pyStrInt a
  have hb := decodeIntChars_pyStrInt b
  rw [h] at ha
  exact ha.symm.trans hb

/-- A digit character is not an underscore. -/
theorem isDigit_ne_underscore {c : Char} (h : c.isDigit = true) : ¬ c = '_' := by
  intro hc
  rw [hc] at h
  exact absurd h (by decide)

/-- The rendering of an integer never contains an underscore. -/
theorem pyStrInt_no_underscore (i : Int) : '_' ∉ (pyStrInt i).data := by
  unfold pyStrInt
  by_cases h : i < 0
  · rw [if_pos h]
    intro hmem
    have : ('_' : Char) ∈ '-' :: (pyStrNat (-i).toNat).data := hmem
    rcases List.mem_cons.mp this with hc | hc
    · cases hc
    · exact isDigit_ne_underscore (pyStrNat_digits _ _ hc) rfl
  · rw [if_neg h]
    intro hmem
    exact isDigit_ne_underscore (pyStrNat_digits _ _ hmem) rfl

/-- Zero padding never introduces an underscore. -/
theorem padZero_no_underscore (w n : Nat) : '_' ∉ (padZero w n).data := by
  unfold padZero
  intro hmem
  rw [String.data_append] at hmem
  rcases List.mem_append.mp hmem with hc | hc
  · have := List.eq_of_mem_replicate hc
    cases this
  · exact isDigit_ne_underscore (pyStrNat_digits _ _ hc) rfl

/-- A `%Y-%m-%d` formatted date never contains an underscore. -/
theorem formatDate_no_underscore (dt : DateTime) : '_' ∉ (formatDate dt).data := by
  unfold formatDate
  intro hmem
  simp only [String.data_append, List.mem_append] at hmem
  rcases hmem with (((h | h) | h) | h) | h
  · exact padZero_no_underscore _ _ h
  · exact absurd h (by decide)
  · exact padZero_no_underscore _ _ h
  · exact absurd h (by decide)
  · exact padZero_no_underscore _ _ h

/-- Splitting at a separator absent from both heads is unambiguous. -/
theorem append_sep_inj_left {sep : Char} :
    ∀ (a1 a2 b1 b2 : List Char), sep ∉ a1 → sep ∉ a2 →
      a1 ++ sep :: b1 = a2 ++ sep :: b2 → a1 = a2 ∧ b1 = b2 := by
  intro a1
  induction a1 with
  | nil =>
    intro a2 b1 b2 h1 h2 heq
    cases a2 with
    | nil => simpa using heq
    | cons x xs =>
      injection heq with hx _
      exact absurd (hx ▸ List.mem_cons_self x xs) h2
  | cons y ys ih =>
    intro a2 b1 b2 h1 h2 heq
    cases a2 with
    | nil =>
      injection heq with hx _
      exact absurd (hx ▸ List.mem_cons_self y ys) h1
    | cons x xs =>
      injection heq with hx hrest
      have h1' : sep ∉ ys := fun hc => h1 (List.mem_cons_of_mem y hc)
      have h2' : sep ∉ xs := fun hc => h2 (List.mem_cons_of_mem x hc)
      obtain ⟨he, hb⟩ := ih xs b1 b2 h1' h2' hrest
      exact ⟨by rw [hx, he], hb⟩

/-- Splitting at a separator absent from both tails is unambiguous. -/
theorem append_sep_inj_right {sep : Char}
    (a1 a2 b1 b2 : List Char) (h1 : sep ∉ b1) (h2 : sep ∉ b2)
    (heq : a1 ++ sep :: b1 = a2 ++ sep :: b2) : a1 = a2 ∧ b1 = b2 := by
  have hrev := congrArg List.reverse heq
  have hshape : ∀ (a b : List Char), (a ++ sep :: b).reverse = b.reverse ++ sep :: a.reverse := by
    intro a b
    simp [List.reverse_append]
  rw [hshape, hshape] at hrev
  have h1' : sep ∉ b1.reverse := fun hc => h1 (List.mem_reverse.mp hc)
  have h2' : sep ∉ b2.reverse := fun hc => h2 (List.mem_reverse.mp hc)
  obtain ⟨hb, ha⟩ := append_sep_inj_left _ _ _ _ h1' h2' hrev
  constructor
  · exact List.reverse_injective ha
  · exact List.reverse_injective hb

/-- The character list of a dispatch key, segment by segment. -/
theorem notificationKey_data (t : Int) (d s dt : String) :
    (notificationKey t d s dt).data
      = (pyStrInt t).data ++ '_' :: (d.data ++ '_' :: (s.data ++ '_' :: dt.data)) := by
  simp [notificationKey, String.data_append, List.append_assoc]

/-- Claim C10 counterexample: CPython `int` accepts underscores between
digits, so `"1_0:30"` is accepted by the time parser (as 10:30); with it,
two distinct (discipline, start-time) pairs produce the same
`notification_key` — the encoding is NOT injective over all
parser-accepted start times. -/
theorem claim10_key_collision :
    notificationKey 1 "x" "1_0:30" "2025-01-06"
        = notificationKey 1 "x_1" "0:30" "2025-01-06" ∧
    parseStartTime "1_0:30" = some (10, 30) ∧
    parseStartTime "0:30" = some (0, 30) ∧
    (("x", "1_0:30") : String × String) ≠ ("x_1", "0:30") :=
  ⟨by decide, by decide, by decide, by decide⟩

/-- Claim C10 as amended: the key encoding is injective over integer
telegram ids, arbitrary disciplines (underscores allowed), parser-accepted
start-time strings that contain no underscore (the usual `HH:MM` forms),
and dates containing no underscore — which `%Y-%m-%d` output never does.
Distinct such tuples always produce distinct `notification_key` strings. -/
theorem claim10_key_injective_amended (t1 t2 : Int) (d1 d2 s1 s2 dt1 dt2 : String)
    (_hp1 : (parseStartTime s1).isSome = true) (_hp2 : (parseStartTime s2).isSome = true)
    (hs1 : '_' ∉ s1.data) (hs2 : '_' ∉ s2.data)
    (hd1 : '_' ∉ dt1.data) (hd2 : '_' ∉ dt2.data)
    (hkey : notificationKey t1 d1 s1 dt1 = notificationKey t2 d2 s2 dt2) :
    (t1 = t2 ∧ d1 = d2 ∧ s1 = s2 ∧ dt1 = dt2) ∧
    (∀ dtm : DateTime, '_' ∉ (formatDate dtm).data) := by
  have hdata := congrArg String.data hkey
  rw [notificationKey_data, notificationKey_data] at hdata
  obtain ⟨htid, hrest⟩ := append_sep_inj_left _ _ _ _
    (pyStrInt_no_underscore t1) (pyStrInt_no_underscore t2) hdata
  have hassoc : ∀ (d s dt : List Char),
      d ++ '_' :: (s ++ '_' :: dt) = (d ++ '_' :: s) ++ '_' :: dt := by
    intro d s dt
    simp
  rw [hassoc, hassoc] at hrest
  obtain ⟨hmid, hdt⟩ := append_sep_inj_right _ _ _ _ hd1 hd2 hrest
  obtain ⟨hd, hs⟩ := append_sep_inj_right _ _ _ _ hs1 hs2 hmid
  refine ⟨⟨pyStrInt_inj htid, string_data_inj hd, string_data_inj hs, string_data_inj hdt⟩,
    formatDate_no_underscore⟩

/-- Claim C10 amended, witness at a concrete input. -/
theorem claim10_key_injective_witness :
    (parseStartTime "10:30").isSome = true ∧ ('_' ∉ "10:30".data) ∧
    ('_' ∉ "2025-02-05".data) ∧
    ((5 : Int) = 5 ∧ "Math" = "Math" ∧ "10:30" = "10:30" ∧ "2025-02-05" = "2025-02-05") :=
  ⟨by decide, by decide, by decide,
    (claim10_key_injective_amended 5 5 "Math" "Math" "10:30" "10:30"
      "2025-02-05" "2025-02-05" (by decide) (by decide) (by decide) (by decide)
      (by decide) (by decide) rfl).1⟩

end Sched
